import Mathlib

/-!
A shallow embedding of `src/PyOS.py`: a simulated shell with an in-memory
file-system tree and a command dispatcher.

The Python tree is a nest of dicts with a `"type"` tag (`"dir"` / `"file"`),
`"children"` for directories and `"content"` for files.  We model a node as a
two-variant inductive and a directory's children dict as an association list
in insertion order: Python dict lookup finds the (unique) key, assignment
replaces the value in place keeping the position (or appends a fresh key), and
`del` removes the entry.  Handlers that in Python could raise an exception that
escapes to the dispatcher's `except Exception` are modelled in `Except String`,
the `.error` payload standing for the exception text.
-/

namespace PyOS

/-- A node of the virtual file system: a directory with named children, or a
file with text content (`PyOS.py` lines 14-16). -/
inductive Node where
  | dir (children : List (String × Node))
  | file (content : String)

/-- Python `name in children` / `children[name]`: first (unique) matching key. -/
def lookupChild : List (String × Node) → String → Option Node
  | [], _ => none
  | (k, v) :: rest, name => if k = name then some v else lookupChild rest name

/-- Python `children[name] = node`: replace in place if the key is present,
append otherwise. -/
def setChild : List (String × Node) → String → Node → List (String × Node)
  | [], name, node => [(name, node)]
  | (k, v) :: rest, name, node =>
      if k = name then (name, node) :: rest else (k, v) :: setChild rest name node

/-- Python `del children[name]`: drop the (unique) entry with that key. -/
def removeChild : List (String × Node) → String → List (String × Node)
  | [], _ => []
  | (k, v) :: rest, name => if k = name then rest else (k, v) :: removeChild rest name

/-- `_get_node_from_path` (`PyOS.py` lines 63-71): walk from the given node,
descending into a child only when it exists and is a directory; `none` models
the Python `return None`.  (Python would raise a `KeyError` if the walk ever
stood on a file node; starting from the root directory that branch is
unreachable, and we model it as `none` as well.) -/
def getNodeFromPath : Node → List String → Option Node
  | node, [] => some node
  | node, part :: rest =>
    match node with
    | Node.file _ => none
    | Node.dir cs =>
      match lookupChild cs part with
      | some (Node.dir d) => getNodeFromPath (Node.dir d) rest
      | _ => none

/-- Replace the children of the directory reached by the same walk as
`getNodeFromPath`; models the in-place mutation of the aliased
`current_node["children"]` dict.  If the walk fails nothing is mutated (the
Python handler would have raised before touching the tree). -/
def setChildrenAtPath : Node → List String → List (String × Node) → Node
  | Node.dir _, [], cs2 => Node.dir cs2
  | Node.dir cs, part :: rest, cs2 =>
    match lookupChild cs part with
    | some (Node.dir d) => Node.dir (setChild cs part (setChildrenAtPath (Node.dir d) rest cs2))
    | _ => Node.dir cs
  | Node.file c, _, _ => Node.file c

/-- The session state: the user name, the tree and the current working path
(a sequence of segments from the root; empty = root). -/
structure PyOSState where
  user : String
  fileSystem : Node
  currentPath : List String

/-- The seed tree built in `__init__` (`PyOS.py` lines 17-44). -/
def initialFileSystem (user : String) : Node :=
  Node.dir
    [("home", Node.dir
        [(user, Node.dir
            [("welcome.txt",
              Node.file "Welcome to PyOS! Type 'help' to see available commands.")])]),
     ("etc", Node.dir
        [("os-release", Node.file "PyOS Version 1.0 (Simulated)")])]

/-- The state right after `__init__`: seeded tree, current path `home/<user>`. -/
def initState (user : String) : PyOSState :=
  { user := user, fileSystem := initialFileSystem user, currentPath := ["home", user] }

/-- Result of one handler: printed lines and the new state, or a Python
exception escaping the handler (its text). -/
abbrev HResult := Except String (List String × PyOSState)

/-- `current_node["children"]` after `_get_current_node` (`PyOS.py` lines
73-75): the children of the directory the current path resolves to, or the
exception raised when the path no longer resolves (`None` is not subscriptable)
or resolves to a file (no `"children"` key). -/
def currentChildren (s : PyOSState) : Except String (List (String × Node)) :=
  match getNodeFromPath s.fileSystem s.currentPath with
  | none => Except.error "'NoneType' object is not subscriptable"
  | some (Node.dir cs) => Except.ok cs
  | some (Node.file _) => Except.error "'children'"

/-- Write back the (mutated) children dict of the current directory. -/
def writeCurrentChildren (s : PyOSState) (cs : List (String × Node)) : PyOSState :=
  { s with fileSystem := setChildrenAtPath s.fileSystem s.currentPath cs }

/-- `"/"`-joined current path, `"/"` at root (`PyOS.py` lines 79, 190). -/
def pathString (path : List String) : String :=
  if path.isEmpty then "/" else "/" ++ String.intercalate "/" path

/-- The static text printed by `_help` (`PyOS.py` lines 84-96). -/
def helpLines : List String :=
  ["PyOS Command List:",
   "  help          - Shows this help message.",
   "  ls [path]     - Lists contents of a directory.",
   "  cd <path>     - Changes the current directory. Use '..' for parent, '/' for root.",
   "  mkdir <name>  - Creates a new directory.",
   "  cat <file>    - Displays the content of a file.",
   "  echo <text> > <file> - Writes text to a file, creating it if necessary.",
   "  rm <name>     - Removes a file or an empty directory.",
   "  pwd           - Prints the current working directory path.",
   "  date          - Displays the current date and time.",
   "  exit          - Exits the PyOS session."]

/-- `_help`: prints the command list, never touches the state. -/
def helpCmd (s : PyOSState) (_args : List String) : HResult :=
  Except.ok (helpLines, s)

/-- Boolean string comparison `a ≤ b`, written as `¬ b < a` over the
underlying character lists so that it evaluates (code-point lexicographic
order, as Python compares strings). -/
def leB (a b : String) : Bool := !(decide (b.data < a.data))

/-- Insert into an already sorted list of names. -/
def insertSorted (x : String) : List String → List String
  | [] => [x]
  | y :: ys => if leB x y then x :: y :: ys else y :: insertSorted x ys

/-- Python `sorted` over strings: stable insertion sort ascending. -/
def sortStrings : List String → List String
  | [] => []
  | x :: xs => insertSorted x (sortStrings xs)

/-- The names `_ls` iterates over: `sorted(node["children"].keys())`. -/
def sortedNames (cs : List (String × Node)) : List String :=
  sortStrings (cs.map Prod.fst)

/-- The name as `_ls` renders it: directories get a trailing slash. -/
def displayName (cs : List (String × Node)) (name : String) : String :=
  match lookupChild cs name with
  | some (Node.dir _) => name ++ "/"
  | _ => name

/-- `_ls` (`PyOS.py` lines 98-109): prints nothing when the current directory
is empty, otherwise one line of sorted names each followed by two spaces.  The
argument list is ignored. -/
def lsCmd (s : PyOSState) (_args : List String) : HResult :=
  match currentChildren s with
  | Except.error e => Except.error e
  | Except.ok cs =>
    if cs.isEmpty then Except.ok ([], s)
    else Except.ok ([String.join ((sortedNames cs).map (fun name => displayName cs name ++ "  "))], s)

/-- `_cd` (`PyOS.py` lines 111-130): no argument goes to `home/<user>`;
`"/"` resets to root; `".."` pops one segment when possible; a bare name
descends only into an existing child directory, otherwise an error line. -/
def cdCmd (s : PyOSState) (args : List String) : HResult :=
  match args with
  | [] => Except.ok ([], { s with currentPath := ["home", s.user] })
  | path :: _ =>
    if path = "/" then Except.ok ([], { s with currentPath := [] })
    else if path = ".." then Except.ok ([], { s with currentPath := s.currentPath.dropLast })
    else
      match currentChildren s with
      | Except.error e => Except.error e
      | Except.ok cs =>
        match lookupChild cs path with
        | some (Node.dir _) => Except.ok ([], { s with currentPath := s.currentPath ++ [path] })
        | _ => Except.ok (["cd: no such directory: " ++ path], s)

/-- `_mkdir` (`PyOS.py` lines 132-142). -/
def mkdirCmd (s : PyOSState) (args : List String) : HResult :=
  match args with
  | [] => Except.ok (["mkdir: missing operand"], s)
  | dirName :: _ =>
    match currentChildren s with
    | Except.error e => Except.error e
    | Except.ok cs =>
      match lookupChild cs dirName with
      | some _ =>
          Except.ok (["mkdir: cannot create directory '" ++ dirName ++ "': File exists"], s)
      | none => Except.ok ([], writeCurrentChildren s (setChild cs dirName (Node.dir [])))

/-- `_cat` (`PyOS.py` lines 144-154). -/
def catCmd (s : PyOSState) (args : List String) : HResult :=
  match args with
  | [] => Except.ok (["cat: missing operand"], s)
  | fileName :: _ =>
    match currentChildren s with
    | Except.error e => Except.error e
    | Except.ok cs =>
      match lookupChild cs fileName with
      | some (Node.file content) => Except.ok ([content], s)
      | _ => Except.ok (["cat: " ++ fileName ++ ": No such file or it is a directory"], s)

/-- The usage line `_echo` prints on a `ValueError`/`IndexError`. -/
def echoUsage : String := "Usage: echo <text> > <filename>"

/-- `_echo` (`PyOS.py` lines 156-168): the first `">"` token splits the
argument list; the token after it names the file, the tokens before it joined
by single spaces become the content; the assignment overwrites or creates the
child unconditionally.  A missing `">"` or a missing filename token raises
inside the `try` and prints the usage line. -/
def echoCmd (s : PyOSState) (args : List String) : HResult :=
  match args.findIdx? (fun t => t = ">") with
  | none => Except.ok ([echoUsage], s)
  | some i =>
    match args[i + 1]? with
    | none => Except.ok ([echoUsage], s)
    | some fileName =>
      let content := String.intercalate " " (args.take i)
      match currentChildren s with
      | Except.error e => Except.error e
      | Except.ok cs => Except.ok ([], writeCurrentChildren s (setChild cs fileName (Node.file content)))

/-- `_rm` (`PyOS.py` lines 170-186): missing name is an error line, a
directory that still has children is refused, anything else is deleted. -/
def rmCmd (s : PyOSState) (args : List String) : HResult :=
  match args with
  | [] => Except.ok (["rm: missing operand"], s)
  | name :: _ =>
    match currentChildren s with
    | Except.error e => Except.error e
    | Except.ok cs =>
      match lookupChild cs name with
      | none =>
          Except.ok (["rm: cannot remove '" ++ name ++ "': No such file or directory"], s)
      | some (Node.dir dcs) =>
        if dcs.isEmpty then Except.ok ([], writeCurrentChildren s (removeChild cs name))
        else Except.ok (["rm: failed to remove '" ++ name ++ "': Directory not empty"], s)
      | some (Node.file _) => Except.ok ([], writeCurrentChildren s (removeChild cs name))

/-- `_pwd` (`PyOS.py` lines 188-191). -/
def pwdCmd (s : PyOSState) (_args : List String) : HResult :=
  Except.ok ([pathString s.currentPath], s)

/-- `_date` (`PyOS.py` lines 193-195): prints the host clock, passed in as the
already-formatted string `now`. -/
def dateCmd (now : String) (s : PyOSState) (_args : List String) : HResult :=
  Except.ok ([now], s)

/-- The verbs of the command table `_get_commands` (`PyOS.py` lines 48-61). -/
def commandNames : List String :=
  ["help", "ls", "cd", "mkdir", "cat", "echo", "rm", "pwd", "date", "exit"]

/-- Dispatch to a handler, as the bound-method table does.  `exit` is handled
in `execLine` itself: `sys.exit` raises `SystemExit`, which `except Exception`
does not catch, so it terminates the loop rather than returning here. -/
def runHandler (now : String) (verb : String) (s : PyOSState) (args : List String) : HResult :=
  match verb with
  | "help" => helpCmd s args
  | "ls" => lsCmd s args
  | "cd" => cdCmd s args
  | "mkdir" => mkdirCmd s args
  | "cat" => catCmd s args
  | "echo" => echoCmd s args
  | "rm" => rmCmd s args
  | "pwd" => pwdCmd s args
  | "date" => dateCmd now s args
  | _ => Except.ok ([], s)

/-- Whether the session keeps reading input after a line. -/
inductive SessionStatus where
  | running
  | terminated

/-- What one iteration of the `run` loop produced. -/
structure StepResult where
  output : List String
  state : PyOSState
  status : SessionStatus

/-- Helper for `tokenize`: walk the characters keeping the (reversed) current
token in `acc`; whitespace closes a token, runs of it produce none. -/
def tokenizeAux : List Char → List Char → List String
  | [], acc => if acc.isEmpty then [] else [String.mk acc.reverse]
  | c :: rest, acc =>
    if c.isWhitespace then
      if acc.isEmpty then tokenizeAux rest [] else String.mk acc.reverse :: tokenizeAux rest []
    else tokenizeAux rest (c :: acc)

/-- Python `str.split()` with no separator argument: split on whitespace runs,
never yielding an empty token. -/
def tokenize (line : String) : List String :=
  tokenizeAux line.data []

/-- One iteration of `run` (`PyOS.py` lines 208-230) on an input line: a blank
line is ignored; a known verb other than `exit` runs its handler inside
`try`/`except Exception`, any escaping fault is printed and the loop goes on;
`exit` prints the shutdown line and ends the session; an unknown verb prints
`command not found`. -/
def execLine (now : String) (s : PyOSState) (line : String) : StepResult :=
  match tokenize line with
  | [] => ⟨[], s, SessionStatus.running⟩
  | verb :: args =>
    if verb ∈ commandNames then
      if verb = "exit" then ⟨["Shutting down PyOS..."], s, SessionStatus.terminated⟩
      else
        match runHandler now verb s args with
        | Except.ok (out, s2) => ⟨out, s2, SessionStatus.running⟩
        | Except.error e =>
            ⟨["An error occurred executing '" ++ verb ++ "': " ++ e], s, SessionStatus.running⟩
    else ⟨[verb ++ ": command not found"], s, SessionStatus.running⟩

/-- Feed a list of input lines to the loop, stopping when the session ends. -/
def runLines (now : String) (s : PyOSState) : List String → PyOSState
  | [] => s
  | line :: rest =>
    let r := execLine now s line
    match r.status with
    | SessionStatus.terminated => r.state
    | SessionStatus.running => runLines now r.state rest

/-- The state is healthy: the current path resolves to a directory of the
tree, so `_get_current_node` returns a usable node. -/
def Valid (s : PyOSState) : Prop :=
  ∃ cs, getNodeFromPath s.fileSystem s.currentPath = some (Node.dir cs)

/-! ### Association-list lemmas -/

theorem lookupChild_setChild_self (cs : List (String × Node)) (k : String) (v : Node) :
    lookupChild (setChild cs k v) k = some v := by
  induction cs with
  | nil => simp [setChild, lookupChild]
  | cons p rest ih =>
    obtain ⟨k1, v1⟩ := p
    by_cases h : k1 = k
    · simp [setChild, h, lookupChild]
    · simp [setChild, h, lookupChild, ih]

theorem lookupChild_setChild_ne (cs : List (String × Node)) (k k2 : String) (v : Node)
    (h : k2 ≠ k) : lookupChild (setChild cs k v) k2 = lookupChild cs k2 := by
  induction cs with
  | nil => simp [setChild, lookupChild, Ne.symm h]
  | cons p rest ih =>
    obtain ⟨k1, v1⟩ := p
    by_cases h1 : k1 = k
    · subst h1
      simp [setChild, lookupChild, Ne.symm h]
    · simp [setChild, h1, lookupChild, ih]

theorem lookupChild_eq_none (cs : List (String × Node)) (k : String) :
    lookupChild cs k = none ↔ k ∉ cs.map Prod.fst := by
  induction cs with
  | nil => simp [lookupChild]
  | cons p rest ih =>
    obtain ⟨k1, v1⟩ := p
    by_cases h : k1 = k
    · simp [lookupChild, h]
    · simp [lookupChild, h, ih, Ne.symm h]

theorem lookupChild_isSome_mem (cs : List (String × Node)) (k : String) (v : Node)
    (h : lookupChild cs k = some v) : k ∈ cs.map Prod.fst := by
  by_contra hmem
  rw [(lookupChild_eq_none cs k).mpr hmem] at h
  exact Option.noConfusion h

theorem setChild_of_lookup_none (cs : List (String × Node)) (k : String) (v : Node)
    (h : lookupChild cs k = none) : setChild cs k v = cs ++ [(k, v)] := by
  induction cs with
  | nil => simp [setChild]
  | cons p rest ih =>
    obtain ⟨k1, v1⟩ := p
    by_cases h1 : k1 = k
    · simp [lookupChild, h1] at h
    · simp [lookupChild, h1] at h
      simp [setChild, h1, ih h]

/-- A successful lookup splits the list at the first entry with that key;
`removeChild` drops exactly that entry. -/
theorem removeChild_decomp (cs : List (String × Node)) (k : String) (v : Node)
    (h : lookupChild cs k = some v) :
    ∃ pre post, cs = pre ++ (k, v) :: post ∧ k ∉ pre.map Prod.fst ∧
      removeChild cs k = pre ++ post := by
  induction cs with
  | nil => simp [lookupChild] at h
  | cons p rest ih =>
    obtain ⟨k1, v1⟩ := p
    by_cases h1 : k1 = k
    · subst h1
      simp [lookupChild] at h
      subst h
      exact ⟨[], rest, by simp [removeChild]⟩
    · simp [lookupChild, h1] at h
      obtain ⟨pre, post, hsplit, hpre, hrm⟩ := ih h
      refine ⟨(k1, v1) :: pre, post, by simp [hsplit], ?_, ?_⟩
      · simp [hpre, Ne.symm h1]
      · simp [removeChild, h1, hrm]

/-! ### Path-resolution lemmas -/

/-- Resolution follows the segments one by one: resolving a concatenation is
resolving the first part, then the second from where it landed. -/
theorem getNodeFromPath_append (p q : List String) :
    ∀ n : Node, getNodeFromPath n (p ++ q) =
      (getNodeFromPath n p).bind (fun m => getNodeFromPath m q) := by
  induction p with
  | nil => intro n; simp [getNodeFromPath]
  | cons part rest ih =>
    intro n
    cases n with
    | file c => simp [getNodeFromPath]
    | dir cs =>
      simp only [List.cons_append, getNodeFromPath]
      cases h : lookupChild cs part with
      | none => simp
      | some child =>
        cases child with
        | dir d => simpa using ih (Node.dir d)
        | file c => simp

/-- Starting from a directory, a successful resolution always lands on a
directory (the walk refuses to stand on a file). -/
theorem getNodeFromPath_dir (p : List String) :
    ∀ (cs : List (String × Node)) (m : Node),
      getNodeFromPath (Node.dir cs) p = some m → ∃ ds, m = Node.dir ds := by
  induction p with
  | nil =>
    intro cs m h
    simp [getNodeFromPath] at h
    exact ⟨cs, h.symm⟩
  | cons part rest ih =>
    intro cs m h
    simp only [getNodeFromPath] at h
    cases hl : lookupChild cs part with
    | none => rw [hl] at h; simp at h
    | some child =>
      rw [hl] at h
      cases child with
      | file c => simp at h
      | dir d => exact ih d m h

theorem setChildrenAtPath_dir (cs : List (String × Node)) (p : List String)
    (cs2 : List (String × Node)) :
    ∃ l2, setChildrenAtPath (Node.dir cs) p cs2 = Node.dir l2 := by
  cases p with
  | nil => exact ⟨cs2, rfl⟩
  | cons part rest =>
    unfold setChildrenAtPath
    split
    · exact ⟨_, rfl⟩
    · exact ⟨cs, rfl⟩

/-- Writing a new children list at a resolvable path is visible at that path:
the in-place dict mutation through the alias returned by the walk. -/
theorem getNodeFromPath_setChildrenAtPath (p : List String) :
    ∀ (n : Node) (cs cs2 : List (String × Node)),
      getNodeFromPath n p = some (Node.dir cs) →
      getNodeFromPath (setChildrenAtPath n p cs2) p = some (Node.dir cs2) := by
  induction p with
  | nil =>
    intro n cs cs2 h
    simp [getNodeFromPath] at h
    subst h
    simp [setChildrenAtPath, getNodeFromPath]
  | cons part rest ih =>
    intro n cs cs2 h
    cases n with
    | file c => simp [getNodeFromPath] at h
    | dir l =>
      simp only [getNodeFromPath] at h
      cases hl : lookupChild l part with
      | none => rw [hl] at h; simp at h
      | some child =>
        rw [hl] at h
        cases child with
        | file c => simp at h
        | dir d =>
          obtain ⟨l2, hl2⟩ := setChildrenAtPath_dir d rest cs2
          unfold setChildrenAtPath
          rw [hl]
          simp only [getNodeFromPath, lookupChild_setChild_self, hl2]
          rw [← hl2]
          exact ih (Node.dir d) cs cs2 h

/-! ### State-validity lemmas -/

theorem currentChildren_ok (s : PyOSState) (cs : List (String × Node))
    (h : currentChildren s = Except.ok cs) :
    getNodeFromPath s.fileSystem s.currentPath = some (Node.dir cs) := by
  unfold currentChildren at h
  cases hr : getNodeFromPath s.fileSystem s.currentPath with
  | none => rw [hr] at h; simp at h
  | some m =>
    rw [hr] at h
    cases m with
    | file c => simp at h
    | dir l => simp at h; rw [h]

theorem currentChildren_of_resolve (s : PyOSState) (cs : List (String × Node))
    (h : getNodeFromPath s.fileSystem s.currentPath = some (Node.dir cs)) :
    currentChildren s = Except.ok cs := by
  unfold currentChildren
  rw [h]

theorem currentChildren_write (s : PyOSState) (cs cs2 : List (String × Node))
    (h : getNodeFromPath s.fileSystem s.currentPath = some (Node.dir cs)) :
    getNodeFromPath (writeCurrentChildren s cs2).fileSystem
      (writeCurrentChildren s cs2).currentPath = some (Node.dir cs2) := by
  simpa [writeCurrentChildren] using
    getNodeFromPath_setChildrenAtPath s.currentPath s.fileSystem cs cs2 h

theorem valid_writeCurrentChildren (s : PyOSState) (cs cs2 : List (String × Node))
    (h : getNodeFromPath s.fileSystem s.currentPath = some (Node.dir cs)) :
    Valid (writeCurrentChildren s cs2) :=
  ⟨cs2, currentChildren_write s cs cs2 h⟩

/-- In a healthy state the root itself is a directory. -/
theorem Valid.rootDir (s : PyOSState) (h : Valid s) :
    ∃ rs, s.fileSystem = Node.dir rs := by
  obtain ⟨cs, hcs⟩ := h
  cases hp : s.currentPath with
  | nil =>
    rw [hp] at hcs
    simp [getNodeFromPath] at hcs
    exact ⟨cs, hcs⟩
  | cons part rest =>
    cases hfs : s.fileSystem with
    | dir rs => exact ⟨rs, rfl⟩
    | file c => rw [hp, hfs] at hcs; simp [getNodeFromPath] at hcs

/-- Popping the last segment of a healthy path leaves a healthy path: every
prefix of a resolvable path resolves to a directory. -/
theorem Valid.dropLast (s : PyOSState) (h : Valid s) :
    Valid { s with currentPath := s.currentPath.dropLast } := by
  obtain ⟨cs, hcs⟩ := h
  by_cases hnil : s.currentPath = []
  · obtain ⟨rs, hfs⟩ := Valid.rootDir s ⟨cs, hcs⟩
    exact ⟨rs, by simp [hnil, getNodeFromPath, hfs]⟩
  · have hsplit : s.currentPath.dropLast ++ [s.currentPath.getLast hnil] = s.currentPath :=
      List.dropLast_append_getLast hnil
    rw [← hsplit, getNodeFromPath_append] at hcs
    cases hm : getNodeFromPath s.fileSystem s.currentPath.dropLast with
    | none => rw [hm] at hcs; simp at hcs
    | some m =>
      rw [hm] at hcs
      simp at hcs
      cases m with
      | file c => simp [getNodeFromPath] at hcs
      | dir l => exact ⟨l, hm⟩

/-- Descending into an existing child directory gives a resolvable path. -/
theorem resolve_append_child (s : PyOSState) (cs d : List (String × Node)) (name : String)
    (h : getNodeFromPath s.fileSystem s.currentPath = some (Node.dir cs))
    (hl : lookupChild cs name = some (Node.dir d)) :
    getNodeFromPath s.fileSystem (s.currentPath ++ [name]) = some (Node.dir d) := by
  rw [getNodeFromPath_append, h]
  simp [getNodeFromPath, hl]

/-! ### Handler state lemmas -/

theorem lsCmd_state (s : PyOSState) (args out : List String) (s2 : PyOSState)
    (h : lsCmd s args = Except.ok (out, s2)) : s2 = s := by
  simp only [lsCmd] at h
  cases hc : currentChildren s with
  | error e => rw [hc] at h; simp at h
  | ok cs =>
    rw [hc] at h
    simp only [] at h
    by_cases he : cs.isEmpty <;> simp [he] at h <;> exact h.2.symm

theorem catCmd_state (s : PyOSState) (args out : List String) (s2 : PyOSState)
    (h : catCmd s args = Except.ok (out, s2)) : s2 = s := by
  cases args with
  | nil => simp [catCmd] at h; exact h.2.symm
  | cons fileName rest =>
    simp only [catCmd] at h
    cases hc : currentChildren s with
    | error e => rw [hc] at h; simp at h
    | ok cs =>
      rw [hc] at h
      simp only [] at h
      cases hl : lookupChild cs fileName with
      | none => rw [hl] at h; simp at h; exact h.2.symm
      | some n =>
        rw [hl] at h
        cases n <;> simp at h <;> exact h.2.symm

theorem mkdirCmd_valid (s : PyOSState) (args out : List String) (s2 : PyOSState)
    (hv : Valid s) (h : mkdirCmd s args = Except.ok (out, s2)) : Valid s2 := by
  cases args with
  | nil => simp [mkdirCmd] at h; exact h.2 ▸ hv
  | cons dirName rest =>
    simp only [mkdirCmd] at h
    cases hc : currentChildren s with
    | error e => rw [hc] at h; simp at h
    | ok cs =>
      rw [hc] at h
      simp only [] at h
      have hres := currentChildren_ok s cs hc
      cases hl : lookupChild cs dirName with
      | some n => rw [hl] at h; simp at h; exact h.2 ▸ hv
      | none =>
        rw [hl] at h
        simp at h
        exact h.2 ▸ valid_writeCurrentChildren s cs _ hres

theorem echoCmd_valid (s : PyOSState) (args out : List String) (s2 : PyOSState)
    (hv : Valid s) (h : echoCmd s args = Except.ok (out, s2)) : Valid s2 := by
  simp only [echoCmd] at h
  cases hi : args.findIdx? (fun t => t = ">") with
  | none => rw [hi] at h; simp at h; exact h.2 ▸ hv
  | some i =>
    rw [hi] at h
    simp only [] at h
    cases hf : args[i + 1]? with
    | none => rw [hf] at h; simp at h; exact h.2 ▸ hv
    | some fileName =>
      rw [hf] at h
      simp only [] at h
      cases hc : currentChildren s with
      | error e => rw [hc] at h; simp at h
      | ok cs =>
        rw [hc] at h
        simp at h
        exact h.2 ▸ valid_writeCurrentChildren s cs _ (currentChildren_ok s cs hc)

theorem rmCmd_valid (s : PyOSState) (args out : List String) (s2 : PyOSState)
    (hv : Valid s) (h : rmCmd s args = Except.ok (out, s2)) : Valid s2 := by
  cases args with
  | nil => simp [rmCmd] at h; exact h.2 ▸ hv
  | cons name rest =>
    simp only [rmCmd] at h
    cases hc : currentChildren s with
    | error e => rw [hc] at h; simp at h
    | ok cs =>
      rw [hc] at h
      simp only [] at h
      have hres := currentChildren_ok s cs hc
      cases hl : lookupChild cs name with
      | none => rw [hl] at h; simp at h; exact h.2 ▸ hv
      | some n =>
        rw [hl] at h
        cases n with
        | file c => simp at h; exact h.2 ▸ valid_writeCurrentChildren s cs _ hres
        | dir dcs =>
          simp only [] at h
          by_cases he : dcs.isEmpty <;> simp [he] at h
          · exact h.2 ▸ valid_writeCurrentChildren s cs _ hres
          · exact h.2 ▸ hv

theorem cdCmd_valid (s : PyOSState) (args out : List String) (s2 : PyOSState)
    (hv : Valid s) (hargs : args ≠ []) (h : cdCmd s args = Except.ok (out, s2)) : Valid s2 := by
  cases args with
  | nil => exact absurd rfl hargs
  | cons path rest =>
    simp only [cdCmd] at h
    by_cases hroot : path = "/"
    · rw [if_pos hroot] at h
      simp at h
      obtain ⟨rs, hfs⟩ := Valid.rootDir s hv
      exact h.2 ▸ ⟨rs, by simp [getNodeFromPath, hfs]⟩
    · rw [if_neg hroot] at h
      by_cases hdots : path = ".."
      · rw [if_pos hdots] at h
        simp at h
        exact h.2 ▸ Valid.dropLast s hv
      · rw [if_neg hdots] at h
        cases hc : currentChildren s with
        | error e => rw [hc] at h; simp at h
        | ok cs =>
          rw [hc] at h
          simp only [] at h
          have hres := currentChildren_ok s cs hc
          cases hl : lookupChild cs path with
          | none => rw [hl] at h; simp at h; exact h.2 ▸ hv
          | some n =>
            rw [hl] at h
            cases n with
            | file c => simp at h; exact h.2 ▸ hv
            | dir d =>
              simp at h
              exact h.2 ▸ ⟨d, resolve_append_child s cs d path hres hl⟩

/-! ### Echo and cat lemmas -/

theorem findIdx_first_gt_aux (ts rest : List String) (h : ">" ∉ ts) :
    ∀ i, List.findIdx? (fun t => t = ">") (ts ++ ">" :: rest) i = some (ts.length + i) := by
  induction ts with
  | nil => intro i; simp [List.findIdx?_cons]
  | cons t ts2 ih =>
    intro i
    have hne : t ≠ ">" := fun hh => h (hh ▸ List.mem_cons_self t ts2)
    have hnotin : ">" ∉ ts2 := fun hh => h (List.mem_cons_of_mem t hh)
    rw [List.cons_append, List.findIdx?_cons, if_neg (by simp [hne]), ih hnotin (i + 1)]
    simp only [List.length_cons]
    congr 1
    omega

/-- The first `">"` of `args.index(">")` when the tokens before it are not
`">"` themselves. -/
theorem findIdx_first_gt (ts rest : List String) (h : ">" ∉ ts) :
    List.findIdx? (fun t => t = ">") (ts ++ ">" :: rest) = some ts.length := by
  simpa using findIdx_first_gt_aux ts rest h 0

/-- What `_echo` does on a well-formed argument list `ts ++ [">", f]` in a
healthy state: no output, and the current directory's children dict gets
`f ↦ file(joined ts)` written through it. -/
theorem echoCmd_writes (s : PyOSState) (cs : List (String × Node)) (ts : List String)
    (f : String)
    (hres : getNodeFromPath s.fileSystem s.currentPath = some (Node.dir cs))
    (hts : ">" ∉ ts) :
    echoCmd s (ts ++ ">" :: [f]) =
      Except.ok ([], writeCurrentChildren s
        (setChild cs f (Node.file (String.intercalate " " ts)))) := by
  have hget : (ts ++ ">" :: [f])[ts.length + 1]? = some f := by
    rw [List.getElem?_append_right (by omega)]
    simp
  have htake : (ts ++ ">" :: [f]).take ts.length = ts := List.take_left ts (">" :: [f])
  simp only [echoCmd, findIdx_first_gt ts [f] hts, hget, htake,
    currentChildren_of_resolve s cs hres]

/-- What `_cat` prints when the name is a file of the current directory. -/
theorem catCmd_reads (s : PyOSState) (cs : List (String × Node)) (f c : String)
    (hres : getNodeFromPath s.fileSystem s.currentPath = some (Node.dir cs))
    (hl : lookupChild cs f = some (Node.file c)) :
    catCmd s [f] = Except.ok ([c], s) := by
  simp only [catCmd, currentChildren_of_resolve s cs hres, hl]

/-! ### Sorting lemmas -/

theorem leB_iff (a b : String) : leB a b = true ↔ a ≤ b := by
  rw [leB, Bool.not_eq_true', decide_eq_false_iff_not]
  have h1 : (b.data < a.data) ↔ b < a := (String.lt_iff_toList_lt).symm
  rw [h1]
  exact not_lt

theorem perm_insertSorted (x : String) (l : List String) :
    (insertSorted x l).Perm (x :: l) := by
  induction l with
  | nil => exact List.Perm.refl _
  | cons y ys ih =>
    by_cases h : leB x y
    · rw [insertSorted, if_pos h]
    · rw [insertSorted, if_neg h]
      exact (ih.cons y).trans (List.Perm.swap x y ys)

theorem perm_sortStrings (l : List String) : (sortStrings l).Perm l := by
  induction l with
  | nil => exact List.Perm.refl _
  | cons x xs ih => exact (perm_insertSorted x (sortStrings xs)).trans (ih.cons x)

theorem sorted_insertSorted (x : String) (l : List String)
    (hl : l.Sorted (fun a b => a ≤ b)) :
    (insertSorted x l).Sorted (fun a b => a ≤ b) := by
  induction l with
  | nil => simp [insertSorted]
  | cons y ys ih =>
    rcases List.sorted_cons.mp hl with ⟨hy, hys⟩
    by_cases h : leB x y
    · rw [insertSorted, if_pos h]
      refine List.sorted_cons.mpr ⟨?_, hl⟩
      intro b hb
      have hxy : x ≤ y := (leB_iff x y).mp h
      rcases List.mem_cons.mp hb with rfl | hbys
      · exact hxy
      · exact le_trans hxy (hy b hbys)
    · rw [insertSorted, if_neg h]
      have hyx : y ≤ x := le_of_not_le (fun hh => h ((leB_iff x y).mpr hh))
      refine List.sorted_cons.mpr ⟨?_, ih hys⟩
      intro b hb
      rcases List.mem_cons.mp ((perm_insertSorted x ys).mem_iff.mp hb) with rfl | hbys
      · exact hyx
      · exact hy b hbys

theorem sorted_sortStrings (l : List String) :
    (sortStrings l).Sorted (fun a b => a ≤ b) := by
  induction l with
  | nil => simp [sortStrings]
  | cons x xs ih => exact sorted_insertSorted x (sortStrings xs) ih

/-! ### Session-level lemmas -/

theorem valid_initState (u : String) : Valid (initState u) := by
  refine ⟨[("welcome.txt",
    Node.file "Welcome to PyOS! Type 'help' to see available commands.")], ?_⟩
  simp [initState, initialFileSystem, getNodeFromPath, lookupChild]

/-- Every line other than a bare `cd` keeps the current path resolving to a
directory of the tree. -/
theorem execLine_preserves_valid (now : String) (s : PyOSState) (line : String)
    (hv : Valid s) (hline : tokenize line ≠ ["cd"]) :
    Valid (execLine now s line).state := by
  rcases htok : tokenize line with _ | ⟨verb, args⟩
  · simpa [execLine, htok] using hv
  · simp only [execLine, htok]
    by_cases hmem : verb ∈ commandNames
    · rw [if_pos hmem]
      by_cases hexit : verb = "exit"
      · rw [if_pos hexit]
        exact hv
      · rw [if_neg hexit]
        cases hrun : runHandler now verb s args with
        | error e => exact hv
        | ok p =>
          obtain ⟨out, s2⟩ := p
          simp only []
          simp only [commandNames, List.mem_cons, List.not_mem_nil, or_false] at hmem
          rcases hmem with rfl | rfl | rfl | rfl | rfl | rfl | rfl | rfl | rfl | rfl
          · simp [runHandler, helpCmd] at hrun
            exact hrun.2 ▸ hv
          · simp only [runHandler] at hrun
            exact (lsCmd_state s args out s2 hrun) ▸ hv
          · have hargs : args ≠ [] := by
              intro hnil
              exact hline (by rw [htok, hnil])
            simp only [runHandler] at hrun
            exact cdCmd_valid s args out s2 hv hargs hrun
          · simp only [runHandler] at hrun
            exact mkdirCmd_valid s args out s2 hv hrun
          · simp only [runHandler] at hrun
            exact (catCmd_state s args out s2 hrun) ▸ hv
          · simp only [runHandler] at hrun
            exact echoCmd_valid s args out s2 hv hrun
          · simp only [runHandler] at hrun
            exact rmCmd_valid s args out s2 hv hrun
          · simp [runHandler, pwdCmd] at hrun
            exact hrun.2 ▸ hv
          · simp [runHandler, dateCmd] at hrun
            exact hrun.2 ▸ hv
          · exact absurd rfl hexit
    · rw [if_neg hmem]
      exact hv

/-! ### The claims -/

/-- C1: resolving a sequence of path segments walks from the root following
each segment (resolution of a concatenation composes), returns `NotFound`
(`none`) as soon as a segment is absent among the current node's children or
names a file rather than a directory, descends through a directory segment,
returns the root for the empty sequence, and every node it returns is a
`Directory`. -/
theorem resolveDirectory_correct (root : List (String × Node)) :
    getNodeFromPath (Node.dir root) [] = some (Node.dir root)
    ∧ (∀ (n : Node) (p q : List String),
        getNodeFromPath n (p ++ q) =
          (getNodeFromPath n p).bind (fun m => getNodeFromPath m q))
    ∧ (∀ part rest, lookupChild root part = none →
        getNodeFromPath (Node.dir root) (part :: rest) = none)
    ∧ (∀ part rest c, lookupChild root part = some (Node.file c) →
        getNodeFromPath (Node.dir root) (part :: rest) = none)
    ∧ (∀ part rest d, lookupChild root part = some (Node.dir d) →
        getNodeFromPath (Node.dir root) (part :: rest) = getNodeFromPath (Node.dir d) rest)
    ∧ (∀ p m, getNodeFromPath (Node.dir root) p = some m → ∃ ds, m = Node.dir ds) := by
  refine ⟨rfl, fun n p q => getNodeFromPath_append p q n, ?_, ?_, ?_,
    fun p m h => getNodeFromPath_dir p root m h⟩
  · intro part rest h
    simp [getNodeFromPath, h]
  · intro part rest c h
    simp [getNodeFromPath, h]
  · intro part rest d h
    simp [getNodeFromPath, h]

/-- Witness for C1 at a concrete two-child root. -/
theorem resolveDirectory_correct_witness :
    getNodeFromPath (Node.dir [("a", Node.dir []), ("f", Node.file "x")]) ["f"] = none
    ∧ getNodeFromPath (Node.dir [("a", Node.dir []), ("f", Node.file "x")]) ["b"] = none
    ∧ getNodeFromPath (Node.dir [("a", Node.dir []), ("f", Node.file "x")]) ["a"] =
        getNodeFromPath (Node.dir []) []
    ∧ (∃ ds, Node.dir ([] : List (String × Node)) = Node.dir ds) := by
  obtain ⟨h0, happ, hnone, hfile, hdir, hres⟩ :=
    resolveDirectory_correct [("a", Node.dir []), ("f", Node.file "x")]
  exact ⟨hfile "f" [] "x" rfl, hnone "b" [] rfl, hdir "a" [] [] rfl,
    hres ["a"] (Node.dir []) rfl⟩

/-- C2: `echo t1 .. tk > f` in a healthy state prints nothing and writes the
file `f` in the current directory with content the tokens joined by single
spaces; a following `cat f` prints exactly that joined text; a second
`echo .. > f` replaces the content (overwrite, not append), so `cat f` then
prints exactly the second joined text. -/
theorem echo_then_cat (s : PyOSState) (ts : List String) (f : String)
    (hv : Valid s) (hts : ">" ∉ ts) :
    ∃ s1, echoCmd s (ts ++ ">" :: [f]) = Except.ok ([], s1)
      ∧ s1.currentPath = s.currentPath
      ∧ (∃ cs1, getNodeFromPath s1.fileSystem s1.currentPath = some (Node.dir cs1)
          ∧ lookupChild cs1 f = some (Node.file (String.intercalate " " ts)))
      ∧ catCmd s1 [f] = Except.ok ([String.intercalate " " ts], s1)
      ∧ ∀ ts2, ">" ∉ ts2 →
          ∃ s2, echoCmd s1 (ts2 ++ ">" :: [f]) = Except.ok ([], s2)
            ∧ catCmd s2 [f] = Except.ok ([String.intercalate " " ts2], s2) := by
  obtain ⟨cs, hres⟩ := hv
  refine ⟨_, echoCmd_writes s cs ts f hres hts, rfl,
    ⟨_, currentChildren_write s cs _ hres, lookupChild_setChild_self _ _ _⟩,
    catCmd_reads _ _ f _ (currentChildren_write s cs _ hres)
      (lookupChild_setChild_self _ _ _), ?_⟩
  intro ts2 hts2
  have hres1 :=
    currentChildren_write s cs (setChild cs f (Node.file (String.intercalate " " ts))) hres
  exact ⟨_, echoCmd_writes _ _ ts2 f hres1 hts2,
    catCmd_reads _ _ f _ (currentChildren_write _ _ _ hres1)
      (lookupChild_setChild_self _ _ _)⟩

/-- Witness for C2: `echo hello world > f.txt` from the freshly started
session. -/
theorem echo_then_cat_witness :
    ∃ s1, echoCmd (initState "alice") (["hello", "world"] ++ ">" :: ["f.txt"])
        = Except.ok ([], s1)
      ∧ s1.currentPath = (initState "alice").currentPath
      ∧ (∃ cs1, getNodeFromPath s1.fileSystem s1.currentPath = some (Node.dir cs1)
          ∧ lookupChild cs1 "f.txt"
              = some (Node.file (String.intercalate " " ["hello", "world"])))
      ∧ catCmd s1 ["f.txt"]
          = Except.ok ([String.intercalate " " ["hello", "world"]], s1)
      ∧ ∀ ts2, ">" ∉ ts2 →
          ∃ s2, echoCmd s1 (ts2 ++ ">" :: ["f.txt"]) = Except.ok ([], s2)
            ∧ catCmd s2 ["f.txt"] = Except.ok ([String.intercalate " " ts2], s2) :=
  echo_then_cat (initState "alice") ["hello", "world"] "f.txt" ⟨_, rfl⟩ (by decide)

/-- C3: in a healthy state, `rm x` on a directory child that still has
children fails with the `Directory not empty` message and leaves the whole
state unchanged; it fails with the not-found message when `x` is absent; it
deletes the entry exactly when `x` is a file or an empty directory, and the
deleted entry is the one the lookup found. -/
theorem rm_spec (s : PyOSState) (x : String) (cs : List (String × Node))
    (hres : getNodeFromPath s.fileSystem s.currentPath = some (Node.dir cs)) :
    (∀ dcs, lookupChild cs x = some (Node.dir dcs) → dcs ≠ [] →
        rmCmd s [x] =
          Except.ok (["rm: failed to remove '" ++ x ++ "': Directory not empty"], s))
    ∧ (lookupChild cs x = none →
        rmCmd s [x] =
          Except.ok (["rm: cannot remove '" ++ x ++ "': No such file or directory"], s))
    ∧ (∀ c, lookupChild cs x = some (Node.file c) →
        rmCmd s [x] = Except.ok ([], writeCurrentChildren s (removeChild cs x)))
    ∧ (lookupChild cs x = some (Node.dir []) →
        rmCmd s [x] = Except.ok ([], writeCurrentChildren s (removeChild cs x)))
    ∧ (∀ v, lookupChild cs x = some v → ∃ pre post, cs = pre ++ (x, v) :: post
          ∧ x ∉ pre.map Prod.fst ∧ removeChild cs x = pre ++ post) := by
  refine ⟨?_, ?_, ?_, ?_, fun v hv => removeChild_decomp cs x v hv⟩
  · intro dcs hl hne
    simp only [rmCmd, currentChildren_of_resolve s cs hres, hl]
    rw [if_neg (fun hh => hne (List.isEmpty_iff.mp hh))]
  · intro hl
    simp only [rmCmd, currentChildren_of_resolve s cs hres, hl]
  · intro c hl
    simp only [rmCmd, currentChildren_of_resolve s cs hres, hl]
  · intro hl
    simp only [rmCmd, currentChildren_of_resolve s cs hres, hl]
    rfl

/-- Witness for C3 at a concrete root with a non-empty directory, a file and
an empty directory. -/
theorem rm_spec_witness :
    rmCmd
        (PyOSState.mk "u"
          (Node.dir [("d", Node.dir [("x", Node.file "1")]), ("f", Node.file "2"),
            ("e", Node.dir [])]) [])
        ["d"]
      = Except.ok (["rm: failed to remove 'd': Directory not empty"],
          PyOSState.mk "u"
            (Node.dir [("d", Node.dir [("x", Node.file "1")]), ("f", Node.file "2"),
              ("e", Node.dir [])]) [])
    ∧ rmCmd
        (PyOSState.mk "u"
          (Node.dir [("d", Node.dir [("x", Node.file "1")]), ("f", Node.file "2"),
            ("e", Node.dir [])]) [])
        ["zzz"]
      = Except.ok (["rm: cannot remove 'zzz': No such file or directory"],
          PyOSState.mk "u"
            (Node.dir [("d", Node.dir [("x", Node.file "1")]), ("f", Node.file "2"),
              ("e", Node.dir [])]) []) := by
  obtain ⟨h1, h2, h3, h4, h5⟩ :=
    rm_spec
      (PyOSState.mk "u"
        (Node.dir [("d", Node.dir [("x", Node.file "1")]), ("f", Node.file "2"),
          ("e", Node.dir [])]) [])
      "d"
      [("d", Node.dir [("x", Node.file "1")]), ("f", Node.file "2"), ("e", Node.dir [])] rfl
  obtain ⟨g1, g2, g3, g4, g5⟩ :=
    rm_spec
      (PyOSState.mk "u"
        (Node.dir [("d", Node.dir [("x", Node.file "1")]), ("f", Node.file "2"),
          ("e", Node.dir [])]) [])
      "zzz"
      [("d", Node.dir [("x", Node.file "1")]), ("f", Node.file "2"), ("e", Node.dir [])] rfl
  exact ⟨h1 [("x", Node.file "1")] rfl (List.cons_ne_nil _ _), g2 rfl⟩

/-- C4 (amended): `mkdir x` over an existing child of either kind is refused
with the line `mkdir: cannot create directory '<name>': File exists` (the
claimed text carries no `mkdir: ` prefix) and changes nothing; running
`mkdir x` twice leaves the current directory with exactly one child named
`x`, the second run failing with that message. -/
theorem mkdir_conflict (s : PyOSState) (x : String) (cs : List (String × Node))
    (hres : getNodeFromPath s.fileSystem s.currentPath = some (Node.dir cs))
    (hcount : (cs.map Prod.fst).count x ≤ 1) :
    (∀ n, lookupChild cs x = some n →
        mkdirCmd s [x] = Except.ok
          (["mkdir: cannot create directory '" ++ x ++ "': File exists"], s))
    ∧ ∃ s1 out1, mkdirCmd s [x] = Except.ok (out1, s1)
        ∧ ∃ cs1, getNodeFromPath s1.fileSystem s1.currentPath = some (Node.dir cs1)
          ∧ mkdirCmd s1 [x] = Except.ok
              (["mkdir: cannot create directory '" ++ x ++ "': File exists"], s1)
          ∧ (cs1.map Prod.fst).count x = 1 := by
  have hfail : ∀ n, lookupChild cs x = some n →
      mkdirCmd s [x] = Except.ok
        (["mkdir: cannot create directory '" ++ x ++ "': File exists"], s) := by
    intro n hl
    simp only [mkdirCmd, currentChildren_of_resolve s cs hres, hl]
  refine ⟨hfail, ?_⟩
  cases hl : lookupChild cs x with
  | some n =>
    refine ⟨s, _, hfail n hl, cs, hres, hfail n hl, ?_⟩
    have h1 : 1 ≤ (cs.map Prod.fst).count x :=
      List.one_le_count_iff.mpr (lookupChild_isSome_mem cs x n hl)
    omega
  | none =>
    have hmk : mkdirCmd s [x] =
        Except.ok ([], writeCurrentChildren s (setChild cs x (Node.dir []))) := by
      simp only [mkdirCmd, currentChildren_of_resolve s cs hres, hl]
    have hres1 := currentChildren_write s cs (setChild cs x (Node.dir [])) hres
    have hl1 : lookupChild (setChild cs x (Node.dir [])) x = some (Node.dir []) :=
      lookupChild_setChild_self cs x (Node.dir [])
    have hfail1 : mkdirCmd (writeCurrentChildren s (setChild cs x (Node.dir []))) [x] =
        Except.ok (["mkdir: cannot create directory '" ++ x ++ "': File exists"],
          writeCurrentChildren s (setChild cs x (Node.dir []))) := by
      simp only [mkdirCmd, currentChildren_of_resolve _ _ hres1, hl1]
    refine ⟨_, _, hmk, setChild cs x (Node.dir []), hres1, hfail1, ?_⟩
    rw [setChild_of_lookup_none cs x _ hl, List.map_append, List.count_append]
    have h0 : (cs.map Prod.fst).count x = 0 :=
      List.count_eq_zero.mpr ((lookupChild_eq_none cs x).mp hl)
    simp [h0]

/-- Counterexample for C4 as stated: the second `mkdir x` prints the
`mkdir: `-prefixed line, not the bare text of the claim. -/
theorem mkdir_message_counterexample :
    (execLine "" (execLine "" (initState "user") "mkdir x").state "mkdir x").output
        = ["mkdir: cannot create directory 'x': File exists"]
    ∧ (execLine "" (execLine "" (initState "user") "mkdir x").state "mkdir x").output
        ≠ ["cannot create directory 'x': File exists"] :=
  ⟨rfl, by decide⟩

/-- Witness for C4 from the freshly started session. -/
theorem mkdir_conflict_witness :
    ∃ s1 out1, mkdirCmd (initState "user") ["docs"] = Except.ok (out1, s1)
      ∧ ∃ cs1, getNodeFromPath s1.fileSystem s1.currentPath = some (Node.dir cs1)
        ∧ mkdirCmd s1 ["docs"] = Except.ok
            (["mkdir: cannot create directory 'docs': File exists"], s1)
        ∧ (cs1.map Prod.fst).count "docs" = 1 :=
  (mkdir_conflict (initState "user") "docs"
    [("welcome.txt", Node.file "Welcome to PyOS! Type 'help' to see available commands.")]
    rfl (by decide)).2

/-- C5 (amended): `cd <name>` for a bare name (not the special arguments `/`
and `..`) that is missing from the current directory or names a file prints
the `cd: `-prefixed line `cd: no such directory: <name>` (the claimed text
carries no `cd: ` prefix) and leaves the whole state, in particular
`currentPath`, unchanged. -/
theorem cd_missing_target (s : PyOSState) (name : String) (cs : List (String × Node))
    (hres : getNodeFromPath s.fileSystem s.currentPath = some (Node.dir cs))
    (hroot : name ≠ "/") (hdots : name ≠ "..")
    (hmiss : lookupChild cs name = none ∨ ∃ c, lookupChild cs name = some (Node.file c)) :
    cdCmd s [name] = Except.ok (["cd: no such directory: " ++ name], s) := by
  rcases hmiss with hl | ⟨c, hl⟩
  · simp only [cdCmd, if_neg hroot, if_neg hdots, currentChildren_of_resolve s cs hres, hl]
  · simp only [cdCmd, if_neg hroot, if_neg hdots, currentChildren_of_resolve s cs hres, hl]

/-- Counterexample for C5 as stated: the line printed for `cd nonexistent` is
not the bare `no such directory: nonexistent`; the path is unchanged. -/
theorem cd_message_counterexample :
    (execLine "" (initState "user") "cd nonexistent").output
        = ["cd: no such directory: nonexistent"]
    ∧ (execLine "" (initState "user") "cd nonexistent").output
        ≠ ["no such directory: nonexistent"]
    ∧ (execLine "" (initState "user") "cd nonexistent").state.currentPath
        = ["home", "user"] :=
  ⟨rfl, by decide, rfl⟩

/-- Witness for C5 from the freshly started session. -/
theorem cd_missing_target_witness :
    cdCmd (initState "user") ["nonexistent"]
      = Except.ok (["cd: no such directory: nonexistent"], initState "user") :=
  cd_missing_target (initState "user") "nonexistent"
    [("welcome.txt", Node.file "Welcome to PyOS! Type 'help' to see available commands.")]
    rfl (by decide) (by decide) (Or.inl rfl)

/-- C6: `cd ..` always succeeds silently and pops exactly one segment: the
new path is `dropLast` of the old one, which at the root (empty path) is a
no-op, and on a non-empty path shortens it by exactly one segment (the length
never goes negative). -/
theorem cd_parent (s : PyOSState) :
    cdCmd s [".."] = Except.ok ([], { s with currentPath := s.currentPath.dropLast })
    ∧ (s.currentPath = [] → { s with currentPath := s.currentPath.dropLast } = s)
    ∧ (s.currentPath ≠ [] →
        s.currentPath.dropLast.length + 1 = s.currentPath.length) := by
  refine ⟨rfl, ?_, ?_⟩
  · intro h
    cases s
    simp_all
  · intro h
    have hpos : 0 < s.currentPath.length := List.length_pos.mpr h
    rw [List.length_dropLast]
    omega

/-- Witness for C6: popping from `/home/user`, and at the root. -/
theorem cd_parent_witness :
    cdCmd (initState "user") [".."]
      = Except.ok ([], { initState "user" with
          currentPath := (initState "user").currentPath.dropLast })
    ∧ (initState "user").currentPath.dropLast.length + 1
        = (initState "user").currentPath.length
    ∧ { PyOSState.mk "u" (Node.dir []) [] with
          currentPath := (PyOSState.mk "u" (Node.dir []) []).currentPath.dropLast }
        = PyOSState.mk "u" (Node.dir []) [] :=
  ⟨(cd_parent (initState "user")).1,
   (cd_parent (initState "user")).2.2 (by decide),
   (cd_parent (PyOSState.mk "u" (Node.dir []) [])).2.1 rfl⟩

/-- C7: in a healthy state `ls` never fails, ignores its arguments, leaves the
state unchanged, and prints the children of the current directory ascending by
name, each directory suffixed with `/` and each file unsuffixed. -/
theorem ls_spec (s : PyOSState) (args : List String) (cs : List (String × Node))
    (hres : getNodeFromPath s.fileSystem s.currentPath = some (Node.dir cs)) :
    (sortedNames cs).Perm (cs.map Prod.fst)
    ∧ (sortedNames cs).Sorted (fun a b => a ≤ b)
    ∧ lsCmd s args = Except.ok
        ((if cs.isEmpty then []
          else [String.join ((sortedNames cs).map (fun name => displayName cs name ++ "  "))]),
         s)
    ∧ lsCmd s args = lsCmd s []
    ∧ (∀ name d, lookupChild cs name = some (Node.dir d) →
        displayName cs name = name ++ "/")
    ∧ (∀ name c, lookupChild cs name = some (Node.file c) →
        displayName cs name = name) := by
  refine ⟨perm_sortStrings _, sorted_sortStrings _, ?_, rfl, ?_, ?_⟩
  · simp only [lsCmd, currentChildren_of_resolve s cs hres]
    by_cases he : cs.isEmpty <;> simp [he]
  · intro name d hl
    simp [displayName, hl]
  · intro name c hl
    simp [displayName, hl]

/-- Witness for C7 at a root whose children are out of name order. -/
theorem ls_spec_witness :
    lsCmd (PyOSState.mk "u" (Node.dir [("b", Node.file "1"), ("a", Node.dir [])]) [])
        ["ignored"]
      = Except.ok (["a/  b  "],
          PyOSState.mk "u" (Node.dir [("b", Node.file "1"), ("a", Node.dir [])]) [])
    ∧ (sortedNames [("b", Node.file "1"), ("a", Node.dir [])]).Sorted (fun a b => a ≤ b) := by
  obtain ⟨hperm, hsort, hout, hignore, hdir, hfile⟩ :=
    ls_spec (PyOSState.mk "u" (Node.dir [("b", Node.file "1"), ("a", Node.dir [])]) [])
      ["ignored"] [("b", Node.file "1"), ("a", Node.dir [])] rfl
  exact ⟨hout, hsort⟩

/-- C8: only `exit` terminates the session: the step's status is `terminated`
exactly when the first token is `exit`; an unknown verb prints
`<verb>: command not found` and the session keeps running with the state
unchanged; a handler fault is caught at the dispatch boundary, printed as
`An error occurred executing '<verb>': <message>`, and the session keeps
running with the state unchanged. -/
theorem dispatch_safety (now : String) (s : PyOSState) (line : String) :
    ((execLine now s line).status = SessionStatus.terminated ↔
      (tokenize line).head? = some "exit")
    ∧ (∀ verb args, tokenize line = verb :: args → verb ∉ commandNames →
        execLine now s line =
          ⟨[verb ++ ": command not found"], s, SessionStatus.running⟩)
    ∧ (∀ verb args e, tokenize line = verb :: args → verb ∈ commandNames →
        verb ≠ "exit" → runHandler now verb s args = Except.error e →
        execLine now s line =
          ⟨["An error occurred executing '" ++ verb ++ "': " ++ e], s,
            SessionStatus.running⟩) := by
  rcases htok : tokenize line with _ | ⟨verb, args⟩
  · refine ⟨?_, ?_, ?_⟩
    · simp [execLine, htok]
    · intro v a h hnot
      exact absurd h (by simp)
    · intro v a e h hmem hne hrun
      exact absurd h (by simp)
  · by_cases hexit : verb = "exit"
    · subst hexit
      refine ⟨?_, ?_, ?_⟩
      · have hmem : ("exit" : String) ∈ commandNames := by decide
        simp [execLine, htok, if_pos hmem]
      · intro v a h hnot
        injection h with h1 h2
        exact absurd (h1 ▸ (by decide : ("exit" : String) ∈ commandNames)) hnot
      · intro v a e h hmem hne hrun
        injection h with h1 h2
        exact absurd h1.symm hne
    · refine ⟨?_, ?_, ?_⟩
      · by_cases hmem : verb ∈ commandNames
        · simp only [execLine, htok, if_pos hmem, if_neg hexit]
          cases hrun : runHandler now verb s args with
          | ok p =>
            obtain ⟨out, s2⟩ := p
            simp [hexit]
          | error e => simp [hexit]
        · simp only [execLine, htok, if_neg hmem]
          simp [hexit]
      · intro v a h hnot
        injection h with h1 h2
        subst h1
        subst h2
        simp only [execLine, htok, if_neg hnot]
      · intro v a e h hmem hne hrun
        injection h with h1 h2
        subst h1
        subst h2
        simp only [execLine, htok, if_pos hmem, if_neg hne, hrun]

/-- Witness for C8: an unknown verb, and a faulting handler (the current path
no longer resolves, so `ls` raises and the dispatcher reports it). -/
theorem dispatch_safety_witness :
    execLine "" (initState "user") "foo bar" =
      ⟨["foo: command not found"], initState "user", SessionStatus.running⟩
    ∧ execLine "" (PyOSState.mk "u" (Node.dir []) ["ghost"]) "ls" =
      ⟨["An error occurred executing 'ls': 'NoneType' object is not subscriptable"],
        PyOSState.mk "u" (Node.dir []) ["ghost"], SessionStatus.running⟩ :=
  ⟨(dispatch_safety "" (initState "user") "foo bar").2.1 "foo" ["bar"] rfl (by decide),
   (dispatch_safety "" (PyOSState.mk "u" (Node.dir []) ["ghost"]) "ls").2.2 "ls" []
     "'NoneType' object is not subscriptable" rfl (by decide) (by decide) rfl⟩

/-- C9 (amended): every command line other than a bare `cd` preserves the
invariant that `currentPath` resolves to an existing directory of the tree
(so `_get_current_node` succeeds at the next handler entry), and the starting
state satisfies it; the exception is `cd` with no argument, which resets
`currentPath` to `["home", user]` unconditionally, even when that path has
been removed or overwritten and no longer resolves. -/
theorem currentPath_invariant (now : String) (s : PyOSState) (line u : String)
    (hv : Valid s) (hline : tokenize line ≠ ["cd"]) :
    Valid (execLine now s line).state
    ∧ Valid (initState u)
    ∧ (execLine now s "cd").state.currentPath = ["home", s.user] :=
  ⟨execLine_preserves_valid now s line hv hline, valid_initState u, rfl⟩

/-- Counterexample for C9 as stated: after `rm welcome.txt; cd /; cd home;
rm user; cd`, a reachable session state, the current path `["home", "user"]`
no longer resolves, and the next `ls` faults into the dispatcher's generic
handler. -/
theorem cd_home_counterexample :
    (runLines "" (initState "user")
        ["rm welcome.txt", "cd /", "cd home", "rm user", "cd"]).currentPath
      = ["home", "user"]
    ∧ getNodeFromPath
        (runLines "" (initState "user")
          ["rm welcome.txt", "cd /", "cd home", "rm user", "cd"]).fileSystem
        ["home", "user"] = none
    ∧ (execLine ""
        (runLines "" (initState "user")
          ["rm welcome.txt", "cd /", "cd home", "rm user", "cd"]) "ls").output
      = ["An error occurred executing 'ls': 'NoneType' object is not subscriptable"] :=
  ⟨rfl, rfl, rfl⟩

/-- Witness for C9. -/
theorem currentPath_invariant_witness :
    Valid (execLine "" (initState "user") "ls").state
    ∧ Valid (initState "bob")
    ∧ (execLine "" (initState "user") "cd").state.currentPath = ["home", "user"] :=
  currentPath_invariant "" (initState "user") "ls" "bob" ⟨_, rfl⟩ (by decide)

/-- C10: `echo .. > name` when `name` is an existing directory child silently
replaces the directory and its whole subtree by a file with the echoed
content: no error line, no `AlreadyExists`, no `DirectoryNotEmpty`; and
`echo > f` with no text tokens before `>` writes the empty string instead of
printing the usage message. -/
theorem echo_clobbers_directory (s : PyOSState) (ts : List String) (f : String)
    (cs ds : List (String × Node))
    (hres : getNodeFromPath s.fileSystem s.currentPath = some (Node.dir cs))
    (hts : ">" ∉ ts)
    (hdir : lookupChild cs f = some (Node.dir ds)) :
    (∃ s1, echoCmd s (ts ++ ">" :: [f]) = Except.ok ([], s1)
      ∧ getNodeFromPath s1.fileSystem s1.currentPath
          = some (Node.dir (setChild cs f (Node.file (String.intercalate " " ts))))
      ∧ lookupChild (setChild cs f (Node.file (String.intercalate " " ts))) f
          = some (Node.file (String.intercalate " " ts)))
    ∧ (∃ s2, echoCmd s [">", f] = Except.ok ([], s2)
      ∧ getNodeFromPath s2.fileSystem s2.currentPath
          = some (Node.dir (setChild cs f (Node.file "")))
      ∧ lookupChild (setChild cs f (Node.file "")) f = some (Node.file "")) := by
  have h2 : echoCmd s [">", f] =
      Except.ok ([], writeCurrentChildren s (setChild cs f (Node.file ""))) :=
    echoCmd_writes s cs [] f hres (by simp)
  exact ⟨⟨_, echoCmd_writes s cs ts f hres hts, currentChildren_write s cs _ hres,
    lookupChild_setChild_self _ _ _⟩,
    ⟨_, h2, currentChildren_write s cs _ hres, lookupChild_setChild_self _ _ _⟩⟩

/-- Witness for C10: clobbering the directory `d` (which has a child), and
the empty-text write. -/
theorem echo_clobbers_directory_witness :
    (∃ s1, echoCmd
        (PyOSState.mk "u" (Node.dir [("d", Node.dir [("x", Node.file "y")])]) [])
        (["hello"] ++ ">" :: ["d"]) = Except.ok ([], s1)
      ∧ getNodeFromPath s1.fileSystem s1.currentPath
          = some (Node.dir (setChild [("d", Node.dir [("x", Node.file "y")])] "d"
              (Node.file (String.intercalate " " ["hello"]))))
      ∧ lookupChild (setChild [("d", Node.dir [("x", Node.file "y")])] "d"
            (Node.file (String.intercalate " " ["hello"]))) "d"
          = some (Node.file (String.intercalate " " ["hello"])))
    ∧ (∃ s2, echoCmd
        (PyOSState.mk "u" (Node.dir [("d", Node.dir [("x", Node.file "y")])]) [])
        [">", "d"] = Except.ok ([], s2)
      ∧ getNodeFromPath s2.fileSystem s2.currentPath
          = some (Node.dir (setChild [("d", Node.dir [("x", Node.file "y")])] "d"
              (Node.file "")))
      ∧ lookupChild (setChild [("d", Node.dir [("x", Node.file "y")])] "d"
            (Node.file "")) "d" = some (Node.file "")) :=
  echo_clobbers_directory
    (PyOSState.mk "u" (Node.dir [("d", Node.dir [("x", Node.file "y")])]) [])
    ["hello"] "d" [("d", Node.dir [("x", Node.file "y")])] [("x", Node.file "y")]
    rfl (by decide) rfl

end PyOS
